import Mathlib

/-!
Verification of the news-anchor broadcast system: a shallow embedding of
`rag_system.py`, `working_voice_addo_fixed.py` and `lip_sync_manager.py`,
with theorems settling the frozen claims about the lexical retrieval
fallback, the position tracker, the interruptible narration loop, the
pacing calculator and the module-level error handling.

Python strings are modelled as `List Char`; Python floats in the pacing
calculator are modelled as exact rationals (the quantities involved are
ratios of small integers, far from any rounding boundary).
-/

namespace NewsAnchor

/-- Characters of a Python string. -/
abbrev Str := List Char

/-- Whitespace, as Python's `str.split()` / `str.strip()` see it. -/
def ws (c : Char) : Bool := c.isWhitespace

/-- Python `s.lower()`. -/
def pyLower (s : Str) : Str := s.map Char.toLower

/-- Python `needle in hay`: substring containment. -/
def pyContains (hay needle : Str) : Bool := decide (needle <:+: hay)

/-- Worker for `splitP`: accumulates the current piece reversed, splitting at
characters satisfying `p` and dropping empty pieces, as Python's
`str.split()` (for `p` = whitespace) and `re.split(r"[.!?]+", ...)` followed
by discarding empties do. -/
def splitPAux (p : Char → Bool) : Str → Str → List Str
  | [], acc => if acc = [] then [] else [acc.reverse]
  | c :: cs, acc =>
    if p c then
      if acc = [] then splitPAux p cs []
      else acc.reverse :: splitPAux p cs []
    else splitPAux p cs (c :: acc)

/-- Split `s` at maximal runs of characters satisfying `p`, keeping only the
nonempty pieces. -/
def splitP (p : Char → Bool) (s : Str) : List Str := splitPAux p s []

/-- Python `s.split()` (no separator argument). -/
def pySplitWs (s : Str) : List Str := splitP ws s

/-- Python `len(s.split())`. -/
def wordCount (s : Str) : Nat := (pySplitWs s).length

/-- Python `s.strip()`. -/
def pyStrip (s : Str) : Str := ((s.dropWhile ws).reverse.dropWhile ws).reverse

/-- Drop every whitespace character: the "ignoring whitespace" view of a
string. -/
def squash (s : Str) : Str := s.filter (fun c => !(ws c))

/-! ## rag_system.py: lexical retrieval fallback (`find_relevant_chunks`) -/

/-- The fixed stop-word set removed from the question before scoring. -/
def stop_words : List Str :=
  (["the", "is", "are", "was", "were", "what", "how", "why", "when", "where",
    "who", "a", "an", "of", "to"]).map String.toList

/-- `set(question.lower().split()) - stop_words`: the distinct, lower-cased,
stop-word-filtered question words (the score below is a sum over the set, so
the set is modelled as the duplicate-free list of first occurrences). -/
def question_words (question : Str) : List Str :=
  ((pySplitWs (pyLower question)).eraseDups).filter (fun w => !(stop_words.contains w))

/-- The per-chunk score of the keyword fallback: for each question word,
+3 when the word occurs in the lower-cased chunk, else +1 when it occurs
inside some whitespace-delimited chunk word. -/
def chunk_score (qws : List Str) (chunk : Str) : Nat :=
  let chunk_lower := pyLower chunk
  qws.foldl (fun score word =>
    if pyContains chunk_lower word then score + 3
    else if (pySplitWs chunk_lower).any (fun chunk_word => pyContains chunk_word word) then
      score + 1
    else score) 0

/-- Insert into a descending-by-score list, before the first strictly smaller
score (so an element keeps its place relative to earlier ties). -/
def insertDesc (a : Nat × Str) : List (Nat × Str) → List (Nat × Str)
  | [] => [a]
  | b :: bs => if b.1 ≤ a.1 then a :: b :: bs else b :: insertDesc a bs

/-- Stable descending sort on the score component: the semantics of Python's
`scored_chunks.sort(reverse=True, key=lambda x: x[0])` (Python's sort is
stable also with `reverse=True`). -/
def sortDesc : List (Nat × Str) → List (Nat × Str)
  | [] => []
  | a :: as => insertDesc a (sortDesc as)

/-- `find_relevant_chunks` with the vector store absent: the enhanced keyword
matching fallback. -/
def find_relevant_chunks (chunks : List Str) (question : Str) (top_k : Nat) : List Str :=
  let qws := question_words question
  let scored_chunks := (chunks.map (fun chunk => (chunk_score qws chunk, chunk))).filter
    (fun sc => 0 < sc.1)
  let relevant_chunks := ((sortDesc scored_chunks).take top_k).map Prod.snd
  if relevant_chunks.isEmpty then chunks.take top_k else relevant_chunks

/-- `find_relevant_chunks` with the vector store modelled: `some (.ok docs)`
is a present store whose `similarity_search` returns `docs`, `some (.error e)`
is a present store whose search raises (caught by the surrounding
`try`/`except`, which returns the first `top_k` chunks), `none` is an absent
store (keyword fallback). -/
def find_relevant_chunks_full (vector_store : Option (Except Str (List Str)))
    (chunks : List Str) (question : Str) (top_k : Nat) : List Str :=
  match vector_store with
  | some (Except.ok docs) => docs
  | some (Except.error _) => if chunks.isEmpty then [] else chunks.take top_k
  | none => find_relevant_chunks chunks question top_k

/-! ## rag_system.py: `ask_question` and the module-level wrappers -/

def msg_not_initialized : Str :=
  "System not initialized. Please check the PDF and API key.".toList

def msg_no_information : Str :=
  "I don't have information about that in the current document.".toList

def msg_quota : Str :=
  "I apologize, but the AI service is temporarily unavailable due to quota limits. Please wait a minute and try again.".toList

def msg_technical : Str :=
  "I apologize, but I'm experiencing technical difficulties. Please try again.".toList

/-- The `"\n\n"` separator joining the retrieved chunks into the context. -/
def nl2 : Str := "\n\n".toList

/-- The f-string prompt `ask_question` sends to generation. -/
def qa_prompt (context question : Str) : Str :=
  "You are a professional news anchor answering questions based on official documents.\n\nOfficial Document Content:\n".toList
  ++ context
  ++ "\n\nViewer Question: ".toList
  ++ question
  ++ "\n\nInstructions:\n1. Carefully read and analyze the document content above\n2. If the answer IS in the document:\n   - Provide the COMPLETE information (don't summarize if it's a list)\n   - For lists, include ALL items mentioned\n   - Be thorough and detailed\n   - Use professional language: \"According to the document...\" or \"The official records indicate...\"\n3. If the answer is NOT in the document:\n   - Clearly state: \"I don't have that specific information in this document.\"\n4. Be factual, professional, and confident like a news anchor\n5. Keep tone natural and conversational but authoritative\n\nYour complete answer:".toList

/-- The `except` classifier of `ask_question`:
`"429" in error_msg or "quota" in error_msg.lower()`. -/
def quota_error (error_msg : Str) : Bool :=
  pyContains error_msg "429".toList || pyContains (pyLower error_msg) "quota".toList

/-- `ask_question`. `gen` models `self.model.generate_content`: `.ok text` is
a successful response, `.error msg` an exception with message `msg` (caught
by the handler at the bottom of the method). The second component records
whether generation was invoked. -/
def ask_question (model_ok : Bool) (chunks : List Str)
    (vector_store : Option (Except Str (List Str))) (question : Str)
    (gen : Str → Except Str Str) : Str × Bool :=
  if !model_ok || chunks.isEmpty then (msg_not_initialized, false)
  else
    let relevant_chunks := find_relevant_chunks_full vector_store chunks question 5
    if relevant_chunks.isEmpty then (msg_no_information, false)
    else
      let context := List.intercalate nl2 relevant_chunks
      match gen (qa_prompt context question) with
      | Except.ok response_text => (pyStrip response_text, true)
      | Except.error e => (if quota_error e then msg_quota else msg_technical, true)

/-! ## rag_system.py: `NewsReadingSystem` position tracker -/

/-- The per-document state of `NewsReadingSystem` that the claims touch. -/
structure NewsSys where
  sentences : List Str
  current_position : Nat
  chunks : List Str
  model_ok : Bool
deriving DecidableEq

/-- `get_next_sentence`: consume and return the sentence at the cursor plus
whether sentences remain, advancing the cursor; `(none, false)` once
exhausted. -/
def get_next_sentence (sys : NewsSys) : (Option Str × Bool) × NewsSys :=
  if h : sys.current_position < sys.sentences.length then
    ((some (sys.sentences.get ⟨sys.current_position, h⟩),
      decide (sys.current_position + 1 < sys.sentences.length)),
     { sys with current_position := sys.current_position + 1 })
  else ((none, false), sys)

/-- `get_remaining_text`: the not-yet-consumed sentences joined with single
spaces. -/
def get_remaining_text (sys : NewsSys) : Str :=
  if sys.current_position < sys.sentences.length then
    List.intercalate ([' ']) (sys.sentences.drop sys.current_position)
  else []

/-- `reset_position`. -/
def reset_position (sys : NewsSys) : NewsSys := { sys with current_position := 0 }

/-- `get_progress`: consumed/total × 100, or 0 for an empty document. -/
def get_progress (sys : NewsSys) : ℚ :=
  if 0 < sys.sentences.length then
    ((sys.current_position : ℚ) / (sys.sentences.length : ℚ)) * 100
  else 0

/-- Module-level `get_next_sentence` over the global `news_system`. -/
def mod_get_next_sentence : Option NewsSys → (Option Str × Bool) × Option NewsSys
  | some sys => ((get_next_sentence sys).1, some (get_next_sentence sys).2)
  | none => ((none, false), none)

/-- Module-level `get_remaining_text`. -/
def mod_get_remaining_text : Option NewsSys → Str
  | some sys => get_remaining_text sys
  | none => []

/-- Module-level `get_progress`. -/
def mod_get_progress : Option NewsSys → ℚ
  | some sys => get_progress sys
  | none => 0

def msg_unavailable : Str :=
  "I apologize, but the system is currently unavailable. Please check the PDF file path and try again.".toList

/-- Module-level `ask_pdf_question`: when the global system is `none` it
attempts one initialization (`init_result` models `initialize_rag`: `some`
on success, `none` on failure) and apologizes if that fails; otherwise it
delegates to `ask_question`. -/
def ask_pdf_question (news_system : Option NewsSys) (init_result : Option NewsSys)
    (vector_store : Option (Except Str (List Str))) (question : Str)
    (gen : Str → Except Str Str) : Str × Option NewsSys :=
  match news_system with
  | none =>
    match init_result with
    | none => (msg_unavailable, none)
    | some sys => ((ask_question sys.model_ok sys.chunks vector_store question gen).1, some sys)
  | some sys => ((ask_question sys.model_ok sys.chunks vector_store question gen).1, some sys)

/-! ## working_voice_addo_fixed.py: module globals and socket handlers

The four module-level globals (`current_language`, `is_reading_news`,
`is_paused_for_question`, `speech_cancelled`) together with the one global
`news_system` of `rag_system.py` form the whole mutable state of the
process; every connected session's handlers and narration loop read and
write this one state. -/

structure GState where
  current_language : Str
  is_reading_news : Bool
  is_paused_for_question : Bool
  speech_cancelled : Bool
  news : NewsSys
deriving DecidableEq

/-- `handle_ask_question` (socket event `ask_question`): pause and cancel the
in-flight speech. The read cursor is not touched. -/
def handle_ask_question (g : GState) : GState :=
  { g with is_paused_for_question := true, speech_cancelled := true }

/-- `handle_continue_reading` (socket event `continue_reading`): clear the
pause and cancel flags and keep reading active. -/
def handle_continue_reading (g : GState) : GState :=
  { g with is_paused_for_question := false, speech_cancelled := false,
           is_reading_news := true }

/-- `handle_start_reading` (socket event `start_reading`): reset the flags,
reset the cursor, and (in a background thread) run the narration loop. -/
def handle_start_reading (g : GState) : GState :=
  { g with is_reading_news := true, is_paused_for_question := false,
           speech_cancelled := false, news := reset_position g.news }

/-- `handle_stop_reading` (socket event `stop_reading`). -/
def handle_stop_reading (g : GState) : GState :=
  { g with is_reading_news := false, speech_cancelled := true }

/-- `handle_cancel_session` (socket event `cancel_session`). -/
def handle_cancel_session (g : GState) : GState :=
  { g with speech_cancelled := true, is_reading_news := false }

/-- `handle_user_question` (socket event `user_question`): an empty question
is ignored; otherwise the answer is computed via `ask_pdf_question`,
`speech_cancelled` is cleared so the answer can be spoken, and the answer
(followed by the continuation prompt) is dispatched. The pause flag and
`is_reading_news` are not touched. -/
def handle_user_question (g : GState) (question : Str)
    (vector_store : Option (Except Str (List Str))) (gen : Str → Except Str Str) :
    GState × Option Str :=
  if (pyStrip question).isEmpty then (g, none)
  else
    let answer := (ask_question g.news.model_ok g.news.chunks vector_store question gen).1
    ({ g with speech_cancelled := false }, some answer)

/-- What one iteration of the `read_news_continuously` while-loop did. -/
inductive LoopEvent where
  /-- `while is_reading_news` found the flag cleared: the loop exits. -/
  | exited
  /-- Paused or cancelled: sleep briefly and re-poll, consuming nothing. -/
  | waited
  /-- A sentence was pulled from the tracker and published with its
  `has_more` flag (its speech may have been interrupted mid-flight). -/
  | dispatched (sentence : Str) (has_more : Bool)
  /-- A sentence was pulled and published, and being the last one the loop
  then emitted completion and stopped. -/
  | dispatchedCompleted (sentence : Str)
  /-- The tracker is exhausted: completion emitted, loop stopped. -/
  | completed
  /-- No sentence but `has_more` still set: nothing happens this round. -/
  | skipped
deriving DecidableEq

/-- The sentence a loop iteration published, if any. -/
def LoopEvent.sentenceOf : LoopEvent → Option Str
  | LoopEvent.dispatched s _ => some s
  | LoopEvent.dispatchedCompleted s => some s
  | _ => none

/-- One iteration of the narration loop in `read_news_continuously`.
`during_speech` models whatever command handlers run concurrently while the
dispatched sentence is being spoken (`id` when nothing intervenes): the
loop checks the pause/cancel flags again right after `speak` returns and, if
they were set, falls back to the waiting branch without re-reading or
re-dispatching anything. -/
def loopStep (g : GState) (during_speech : GState → GState) : GState × LoopEvent :=
  if !g.is_reading_news then (g, LoopEvent.exited)
  else if g.is_paused_for_question || g.speech_cancelled then (g, LoopEvent.waited)
  else
    let r := get_next_sentence g.news
    let g1 := { g with news := r.2 }
    match r.1 with
    | (some sentence, has_more) =>
      let g2 := during_speech g1
      if g2.is_paused_for_question || g2.speech_cancelled then
        (g2, LoopEvent.dispatched sentence has_more)
      else if !has_more then
        ({ g2 with is_reading_news := false }, LoopEvent.dispatchedCompleted sentence)
      else (g2, LoopEvent.dispatched sentence has_more)
    | (none, has_more) =>
      if !has_more then ({ g1 with is_reading_news := false }, LoopEvent.completed)
      else (g1, LoopEvent.skipped)

/-- A socket handler as invoked for a given connected session: `request.sid`
selects only the room events are emitted to; the state mutations in the
handler body touch the module-level globals. -/
def handle_ask_question_for (_sid : Nat) (g : GState) : GState := handle_ask_question g

/-- `handle_continue_reading` as invoked for a given session. -/
def handle_continue_reading_for (_sid : Nat) (g : GState) : GState := handle_continue_reading g

/-- `handle_start_reading` as invoked for a given session. -/
def handle_start_reading_for (_sid : Nat) (g : GState) : GState := handle_start_reading g

/-- `handle_stop_reading` as invoked for a given session. -/
def handle_stop_reading_for (_sid : Nat) (g : GState) : GState := handle_stop_reading g

/-- `handle_cancel_session` as invoked for a given session. -/
def handle_cancel_session_for (_sid : Nat) (g : GState) : GState := handle_cancel_session g

/-! ## lip_sync_manager.py -/

def talk_video_duration : ℚ := 5
def base_wpm : ℚ := 140
def min_wpm : ℚ := 110
def max_wpm : ℚ := 170

/-- `estimate_speech_duration`: seconds at the base speaking rate. -/
def estimate_speech_duration (text : Str) : ℚ :=
  (wordCount text : ℚ) / base_wpm * 60

/-- Python 3 `round` on an exact value: round-half-to-even. -/
def pyRound (q : ℚ) : ℤ :=
  if q - ⌊q⌋ < 1 / 2 then ⌊q⌋
  else if 1 / 2 < q - ⌊q⌋ then ⌊q⌋ + 1
  else if Even ⌊q⌋ then ⌊q⌋ else ⌊q⌋ + 1

/-- Python `int()` on a float: truncation toward zero. -/
def pyInt (q : ℚ) : ℤ := if 0 ≤ q then ⌊q⌋ else -⌊-q⌋

/-- `calculate_optimal_rate`: the TTS rate matching the video-loop timing. -/
def calculate_optimal_rate (text : Str) : ℤ :=
  let words := wordCount text
  if words ≤ 5 then 140
  else
    let estimated_duration := estimate_speech_duration text
    let num_loops : ℤ := max 1 (pyRound (estimated_duration / talk_video_duration))
    let target_duration : ℚ := (num_loops : ℚ) * talk_video_duration
    let required_wpm : ℚ := (words : ℚ) / target_duration * 60
    let optimal_wpm : ℚ := max min_wpm (min max_wpm required_wpm)
    pyInt optimal_wpm

/-- `get_video_loops_needed`. -/
def get_video_loops_needed (text : Str) : ℤ :=
  max 1 (pyRound (estimate_speech_duration text / talk_video_duration))

/-- The sentence-boundary characters of `split_text_for_natural_pauses`. -/
def isSentencePunct (c : Char) : Bool := c = '.' || c = '!' || c = '?'

/-- `re.split(r"[.!?]+", text)` followed by stripping each piece and keeping
the nonempty ones. -/
def pauseSentences (text : Str) : List Str :=
  ((splitP isSentencePunct text).map pyStrip).filter (fun s => !s.isEmpty)

/-- `current_chunk + " " + sentence if current_chunk else sentence`. -/
def joinChunk (current s : Str) : Str :=
  if current.isEmpty then s else current ++ ' ' :: s

/-- The sentence-accumulation loop of `split_text_for_natural_pauses`:
returns the closed chunks and the still-open chunk. -/
def chunkRec : List Str → List Str → Str → List Str × Str
  | [], chunks, current => (chunks, current)
  | s :: rest, chunks, current =>
    let test_chunk := joinChunk current s
    if 15 < wordCount test_chunk then
      chunkRec rest (if current.isEmpty then chunks else chunks ++ [pyStrip current]) s
    else
      chunkRec rest chunks test_chunk

/-- The close of the accumulation loop: append the still-open chunk
(stripped) if there is one. -/
def closeChunks (out : List Str × Str) : List Str :=
  if out.2.isEmpty then out.1 else out.1 ++ [pyStrip out.2]

/-- `split_text_for_natural_pauses`. -/
def split_text_for_natural_pauses (text : Str) : List Str :=
  let chunks := closeChunks (chunkRec (pauseSentences text) [] [])
  if chunks.isEmpty then [text] else chunks

/-! ## Helper lemmas about the string splitter -/

theorem mem_splitPAux_isInfix (p : Char → Bool) :
    ∀ (s acc w : Str), w ∈ splitPAux p s acc → w <:+: (acc.reverse ++ s)
  | [], acc, w, h => by
    by_cases hacc : acc = []
    · subst hacc
      simp [splitPAux] at h
    · rw [splitPAux, if_neg hacc, List.mem_singleton] at h
      subst h
      simp
  | c :: cs, acc, w, h => by
    rw [splitPAux] at h
    by_cases hpc : p c
    · rw [if_pos hpc] at h
      by_cases hacc : acc = []
      · rw [if_pos hacc] at h
        subst hacc
        have h2 := mem_splitPAux_isInfix p cs [] w h
        simp only [List.reverse_nil, List.nil_append] at h2 ⊢
        exact h2.trans (List.suffix_cons c cs).isInfix
      · rw [if_neg hacc, List.mem_cons] at h
        rcases h with h | h
        · subst h
          exact (List.prefix_append acc.reverse (c :: cs)).isInfix
        · have h2 := mem_splitPAux_isInfix p cs [] w h
          simp only [List.reverse_nil, List.nil_append] at h2
          exact h2.trans ((List.suffix_cons c cs).trans
            (List.suffix_append acc.reverse (c :: cs))).isInfix
    · rw [if_neg hpc] at h
      have h2 := mem_splitPAux_isInfix p cs (c :: acc) w h
      simpa [List.append_assoc] using h2

/-- Every piece produced by `splitP` is an infix of the original string. -/
theorem mem_splitP_isInfix (p : Char → Bool) (s w : Str) (h : w ∈ splitP p s) :
    w <:+: s := by
  have := mem_splitPAux_isInfix p s [] w h
  simpa using this

theorem splitPAux_all_sep (p : Char → Bool) :
    ∀ (m acc : Str), (∀ c ∈ m, p c = true) →
      splitPAux p m acc = if acc = [] then [] else [acc.reverse]
  | [], _, _ => rfl
  | c :: cs, acc, h => by
    have hpc : p c = true := h c (List.mem_cons_self c cs)
    have ih := splitPAux_all_sep p cs [] (fun d hd => h d (List.mem_cons_of_mem c hd))
    rw [splitPAux, if_pos hpc]
    by_cases hacc : acc = []
    · rw [if_pos hacc, ih]
      simp [hacc]
    · rw [if_neg hacc, ih]
      simp [hacc]

theorem splitPAux_append_sep (p : Char → Bool) (m : Str) (hm : ∀ c ∈ m, p c = true) :
    ∀ (s acc : Str), splitPAux p (s ++ m) acc = splitPAux p s acc
  | [], acc => by
    rw [List.nil_append, splitPAux_all_sep p m acc hm, splitPAux]
  | c :: cs, acc => by
    rw [List.cons_append, splitPAux, splitPAux]
    by_cases hpc : p c
    · rw [if_pos hpc, if_pos hpc]
      by_cases hacc : acc = []
      · rw [if_pos hacc, if_pos hacc, splitPAux_append_sep p m hm cs []]
      · rw [if_neg hacc, if_neg hacc, splitPAux_append_sep p m hm cs []]
    · rw [if_neg hpc, if_neg hpc, splitPAux_append_sep p m hm cs (c :: acc)]

/-- Appending trailing separator characters does not change the split. -/
theorem splitP_append_sep (p : Char → Bool) (s m : Str) (hm : ∀ c ∈ m, p c = true) :
    splitP p (s ++ m) = splitP p s :=
  splitPAux_append_sep p m hm s []

theorem splitPAux_sep_left (p : Char → Bool) :
    ∀ (m : Str), (∀ c ∈ m, p c = true) → ∀ (s : Str),
      splitPAux p (m ++ s) [] = splitPAux p s []
  | [], _, s => by rw [List.nil_append]
  | c :: cs, h, s => by
    have hpc : p c = true := h c (List.mem_cons_self c cs)
    rw [List.cons_append, splitPAux, if_pos hpc, if_pos rfl]
    exact splitPAux_sep_left p cs (fun d hd => h d (List.mem_cons_of_mem c hd)) s

/-- Prepending leading separator characters does not change the split. -/
theorem splitP_sep_left (p : Char → Bool) (m s : Str) (hm : ∀ c ∈ m, p c = true) :
    splitP p (m ++ s) = splitP p s :=
  splitPAux_sep_left p m hm s

/-- The decomposition `s = leading-ws ++ (pyStrip s) ++ trailing-ws` realised
on `dropWhile`: the stripped string together with its whitespace margins. -/
theorem pyStrip_decomp (s : Str) :
    s.dropWhile ws = pyStrip s ++ ((s.dropWhile ws).reverse.takeWhile ws).reverse := by
  unfold pyStrip
  rw [← List.reverse_append, List.takeWhile_append_dropWhile, List.reverse_reverse]

theorem splitP_ws_dropWhile (s : Str) :
    splitP ws (s.dropWhile ws) = splitP ws s := by
  conv_rhs => rw [← List.takeWhile_append_dropWhile (p := ws) (l := s)]
  exact (splitP_sep_left ws (s.takeWhile ws) (s.dropWhile ws)
    (fun c hc => List.mem_takeWhile_imp hc)).symm

/-- Stripping does not change the word decomposition. -/
theorem splitP_ws_pyStrip (s : Str) : splitP ws (pyStrip s) = splitP ws s := by
  have h2 := splitP_ws_dropWhile s
  have h3 : splitP ws (s.dropWhile ws) = splitP ws (pyStrip s) := by
    conv_lhs => rw [pyStrip_decomp s]
    exact splitP_append_sep ws (pyStrip s) _
      (fun c hc => List.mem_takeWhile_imp (List.mem_reverse.mp hc))
  rw [← h3, h2]

/-- Stripping does not change the word count. -/
theorem wordCount_pyStrip (s : Str) : wordCount (pyStrip s) = wordCount s := by
  unfold wordCount pySplitWs
  rw [splitP_ws_pyStrip]

theorem squash_append (a b : Str) : squash (a ++ b) = squash a ++ squash b := by
  unfold squash
  exact List.filter_append a b

theorem squash_all_ws (m : Str) (hm : ∀ c ∈ m, ws c = true) : squash m = [] := by
  unfold squash
  simp only [List.filter_eq_nil_iff]
  intro a ha
  simp [hm a ha]

/-- Stripping only removes whitespace. -/
theorem squash_pyStrip (s : Str) : squash (pyStrip s) = squash s := by
  have h2 : squash (s.dropWhile ws) = squash s := by
    conv_rhs => rw [← List.takeWhile_append_dropWhile (p := ws) (l := s)]
    rw [squash_append,
      squash_all_ws (s.takeWhile ws) (fun c hc => List.mem_takeWhile_imp hc),
      List.nil_append]
  have h3 : squash (s.dropWhile ws) = squash (pyStrip s) := by
    conv_lhs => rw [pyStrip_decomp s]
    rw [squash_append,
      squash_all_ws _ (fun c hc => List.mem_takeWhile_imp (List.mem_reverse.mp hc)),
      List.append_nil]
  rw [← h3, h2]

theorem dropWhile_dropWhile (p : Char → Bool) (l : Str) :
    (l.dropWhile p).dropWhile p = l.dropWhile p := by
  induction l with
  | nil => rfl
  | cons c cs ih =>
    by_cases hpc : p c
    · rw [List.dropWhile_cons_of_pos hpc]
      exact ih
    · rw [List.dropWhile_cons_of_neg hpc, List.dropWhile_cons_of_neg hpc]

/-- `pyStrip` is idempotent. -/
theorem pyStrip_idem (s : Str) : pyStrip (pyStrip s) = pyStrip s := by
  rcases hz : pyStrip s with _ | ⟨a, l⟩
  · rfl
  · rw [← hz]
    -- `pyStrip s` is a prefix of `dropWhile ws s`, so its head is not whitespace
    have hpre : pyStrip s <+: s.dropWhile ws := by
      have hsfx : (s.dropWhile ws).reverse.dropWhile ws <:+ (s.dropWhile ws).reverse :=
        List.dropWhile_suffix ws
      have h4 := List.reverse_prefix.mpr hsfx
      simpa [pyStrip] using h4
    obtain ⟨t, ht⟩ := hpre
    have hne : s.dropWhile ws ≠ [] := by
      rw [← ht, hz]
      simp
    have hhead1 : (s.dropWhile ws).head hne = a := by
      have : s.dropWhile ws = a :: (l ++ t) := by rw [← ht, hz]; rfl
      simp [this]
    have hhead : ¬ (ws a = true) := by
      have h5 := List.head_dropWhile_not ws s hne
      rw [hhead1] at h5
      simp [h5]
    have hfront : (pyStrip s).dropWhile ws = pyStrip s := by
      rw [hz, List.dropWhile_cons_of_neg hhead]
    have hback : (pyStrip s).reverse.dropWhile ws = (pyStrip s).reverse := by
      unfold pyStrip
      rw [List.reverse_reverse]
      exact dropWhile_dropWhile ws _
    calc pyStrip (pyStrip s)
        = (((pyStrip s).dropWhile ws).reverse.dropWhile ws).reverse := rfl
      _ = ((pyStrip s).reverse.dropWhile ws).reverse := by rw [hfront]
      _ = ((pyStrip s).reverse).reverse := by rw [hback]
      _ = pyStrip s := List.reverse_reverse _

/-- Every element of `pauseSentences t` is a nonempty stripped fragment. -/
theorem mem_pauseSentences (t s : Str) (h : s ∈ pauseSentences t) :
    s ≠ [] ∧ pyStrip s = s := by
  unfold pauseSentences at h
  rw [List.mem_filter] at h
  obtain ⟨hmem, hne⟩ := h
  rw [List.mem_map] at hmem
  obtain ⟨s0, _, rfl⟩ := hmem
  refine ⟨?_, pyStrip_idem s0⟩
  intro hcon
  rw [hcon] at hne
  simp at hne

/-! ## The lexical fallback scorer: dead branch and closed form -/

/-- The `elif` partial-match branch of the fallback scorer is unreachable:
a question word occurring inside one whitespace-delimited chunk word
already occurs inside the whole chunk, so the `if` branch fires first. -/
theorem partial_match_unreachable (chunk_lower word : Str)
    (h : (pySplitWs chunk_lower).any (fun chunk_word => pyContains chunk_word word) = true) :
    pyContains chunk_lower word = true := by
  rw [List.any_eq_true] at h
  obtain ⟨cw, hmem, hcw⟩ := h
  unfold pyContains at hcw ⊢
  rw [decide_eq_true_eq] at hcw ⊢
  exact hcw.trans (mem_splitP_isInfix ws chunk_lower cw hmem)

theorem chunk_score_foldl (chunk_lower : Str) :
    ∀ (qws : List Str) (a : Nat),
      qws.foldl (fun score word =>
        if pyContains chunk_lower word then score + 3
        else if (pySplitWs chunk_lower).any (fun chunk_word => pyContains chunk_word word) then
          score + 1
        else score) a
      = a + 3 * qws.countP (fun w => pyContains chunk_lower w)
  | [], a => by simp
  | w :: qws, a => by
    by_cases hw : pyContains chunk_lower w = true
    · rw [List.foldl_cons, if_pos hw, chunk_score_foldl chunk_lower qws (a + 3),
        List.countP_cons]
      simp only [hw, if_pos]
      ring
    · have hw2 : ¬ ((pySplitWs chunk_lower).any
          (fun chunk_word => pyContains chunk_word w) = true) :=
        fun hcon => hw (partial_match_unreachable chunk_lower w hcon)
      rw [List.foldl_cons, if_neg hw, if_neg hw2, chunk_score_foldl chunk_lower qws a,
        List.countP_cons]
      simp [hw]

/-- The score the fallback actually assigns: 3 per distinct (lower-cased,
stop-word-filtered) question word occurring as a substring of the
lower-cased chunk; the +1 partial-match branch never fires. -/
def chunk_score_amended (qws : List Str) (chunk : Str) : Nat :=
  3 * qws.countP (fun w => pyContains (pyLower chunk) w)

/-- The per-chunk score of the embedding is the amended closed form. -/
theorem chunk_score_eq (qws : List Str) (chunk : Str) :
    chunk_score qws chunk = chunk_score_amended qws chunk := by
  unfold chunk_score chunk_score_amended
  rw [chunk_score_foldl]
  simp

/-- The retrieval fallback as the amended claim describes it: score each
chunk with `chunk_score_amended`, sort descending stably, keep the top `k`
among the strictly positive scores, and fall back to the first `k` chunks
when nothing scores. -/
def find_relevant_chunks_amended (chunks : List Str) (question : Str) (top_k : Nat) :
    List Str :=
  let qws := question_words question
  let scored_chunks := (chunks.map (fun chunk => (chunk_score_amended qws chunk, chunk))).filter
    (fun sc => 0 < sc.1)
  let relevant_chunks := ((sortDesc scored_chunks).take top_k).map Prod.snd
  if relevant_chunks.isEmpty then chunks.take top_k else relevant_chunks

/-- The scoring rule exactly as claim C3 words it: 3 per chunk word that
equals a question word, 1 per chunk word of which some question word is a
non-equal substring, and the top `k` among positive scores with no
fallback. -/
def chunk_score_claimed (qws : List Str) (chunk : Str) : Nat :=
  ((pySplitWs (pyLower chunk)).map (fun chunk_word =>
    if qws.contains chunk_word then 3
    else if qws.any (fun w => (w != chunk_word) && pyContains chunk_word w) then 1
    else 0)).sum

/-- `find_relevant_chunks` as claim C3 words it. -/
def find_relevant_chunks_claimed (chunks : List Str) (question : Str) (top_k : Nat) :
    List Str :=
  let qws := question_words question
  let scored_chunks := (chunks.map (fun chunk => (chunk_score_claimed qws chunk, chunk))).filter
    (fun sc => 0 < sc.1)
  ((sortDesc scored_chunks).take top_k).map Prod.snd

theorem ite_isEmpty_ne_nil (l fb : List Str) (hf : fb ≠ []) :
    (if l.isEmpty then fb else l) ≠ [] := by
  by_cases hc : l.isEmpty
  · rw [if_pos hc]
    exact hf
  · rw [if_neg hc]
    intro hcon
    rw [hcon] at hc
    exact hc rfl

theorem take_ne_nil_of (k : Nat) (l : List Str) (hl : l ≠ []) (hk : 0 < k) :
    l.take k ≠ [] := by
  rw [Ne, List.take_eq_nil_iff]
  push_neg
  exact ⟨by omega, hl⟩

/-- The fallback never returns the empty list on a nonempty chunk list. -/
theorem find_relevant_chunks_ne_nil (chunks : List Str) (question : Str) (top_k : Nat)
    (h : chunks ≠ []) (hk : 0 < top_k) :
    find_relevant_chunks chunks question top_k ≠ [] := by
  unfold find_relevant_chunks
  exact ite_isEmpty_ne_nil _ _ (take_ne_nil_of top_k chunks h hk)

/-! ## Claim C3: the lexical fallback's scoring rule -/

/-- C3 counterexample: the code does not score 3 per chunk word equal to a
question word (nor 1 per partial chunk word) and does not return only
positively scored chunks. On question "cat dog" over chunks
["cat cat", "cat dog"], the code scores per question-word containment
(3 vs 6) and ranks "cat dog" first, while the claimed scorer ties both at 6
and keeps the original order; and on a question matching nothing the code
returns the first chunks while the claimed rule returns none. -/
theorem c3_counterexample :
    find_relevant_chunks ["cat cat".toList, "cat dog".toList] "cat dog".toList 5
      = ["cat dog".toList, "cat cat".toList]
    ∧ find_relevant_chunks_claimed ["cat cat".toList, "cat dog".toList] "cat dog".toList 5
      = ["cat cat".toList, "cat dog".toList]
    ∧ find_relevant_chunks ["cat cat".toList, "cat dog".toList] "cat dog".toList 5
      ≠ find_relevant_chunks_claimed ["cat cat".toList, "cat dog".toList] "cat dog".toList 5
    ∧ find_relevant_chunks ["zebra stripes".toList] "cat".toList 5
      = ["zebra stripes".toList]
    ∧ find_relevant_chunks_claimed ["zebra stripes".toList] "cat".toList 5 = [] := by
  refine ⟨by decide, by decide, by decide, by decide, by decide⟩

/-- C3 as amended: for every question, chunk list and k, the lexical
fallback scores each chunk as 3 times the number of distinct lower-cased
stop-word-filtered question words occurring as substrings of the
lower-cased chunk (the +1 partial-match branch being unreachable), sorts
descending preserving chunk order on ties, takes the top k among positive
scores, and returns the first k chunks when no chunk scores. -/
theorem c3_theorem (chunks : List Str) (question : Str) (top_k : Nat) :
    find_relevant_chunks chunks question top_k
      = find_relevant_chunks_amended chunks question top_k := by
  unfold find_relevant_chunks find_relevant_chunks_amended
  simp only [chunk_score_eq]

/-! ## Claim C2: zero-scoring questions and generation -/

/-- C2 counterexample: with a single chunk "alpha beta" and question
"gamma" no chunk scores above 0, yet `ask_question` does invoke generation
(on the first-chunks fallback context) and returns the generated answer,
not the fixed no-information message. -/
theorem c2_counterexample :
    (∀ c ∈ [("alpha beta".toList : Str)],
      chunk_score (question_words "gamma".toList) c = 0)
    ∧ (ask_question true ["alpha beta".toList] none "gamma".toList
        (fun _ => Except.ok "An answer.".toList)).2 = true
    ∧ (ask_question true ["alpha beta".toList] none "gamma".toList
        (fun _ => Except.ok "An answer.".toList)).1 ≠ msg_no_information := by
  refine ⟨by decide, by decide, by decide⟩

/-- C2 as amended: when a question is submitted whose every chunk score is
0 under the lexical fallback and the chunk list is nonempty, the fallback
returns the first `top_k` chunks instead of nothing and `ask_question`
does invoke the generation service on them; the fixed no-information
message would require an empty retrieval result, which the lexical
fallback never produces for a nonempty chunk list. -/
theorem c2_theorem (chunks : List Str) (question : Str) (top_k : Nat)
    (gen : Str → Except Str Str)
    (hne : chunks ≠ [])
    (hzero : ∀ c ∈ chunks, chunk_score (question_words question) c = 0) :
    find_relevant_chunks chunks question top_k = chunks.take top_k
    ∧ (ask_question true chunks none question gen).2 = true := by
  have hfil : (chunks.map
      (fun chunk => (chunk_score (question_words question) chunk, chunk))).filter
      (fun sc => 0 < sc.1) = [] := by
    rw [List.filter_eq_nil_iff]
    intro a ha
    rw [List.mem_map] at ha
    obtain ⟨c, hc, rfl⟩ := ha
    simp [hzero c hc]
  have hfrc : find_relevant_chunks chunks question top_k = chunks.take top_k := by
    unfold find_relevant_chunks
    simp only [hfil]
    simp [sortDesc]
  refine ⟨hfrc, ?_⟩
  have hchunks : chunks.isEmpty = false := by
    cases chunks with
    | nil => exact absurd rfl hne
    | cons _ _ => rfl
  have hrel : find_relevant_chunks_full none chunks question 5
      = find_relevant_chunks chunks question 5 := rfl
  have hrel2 : find_relevant_chunks chunks question 5 ≠ [] :=
    find_relevant_chunks_ne_nil chunks question 5 hne (by omega)
  have hrel3 : (find_relevant_chunks_full none chunks question 5).isEmpty = false := by
    rw [hrel]
    cases hc : find_relevant_chunks chunks question 5 with
    | nil => exact absurd hc hrel2
    | cons _ _ => rfl
  unfold ask_question
  simp only [hchunks, Bool.not_true, Bool.false_or, Bool.or_false, if_false, hrel3]
  cases gen (qa_prompt (List.intercalate nl2 (find_relevant_chunks_full none chunks question 5)) question) with
  | ok a => rfl
  | error e => rfl

/-- C2 witness: the amended theorem applied at the counterexample's input. -/
theorem c2_witness :
    find_relevant_chunks ["alpha beta".toList] "gamma".toList 5
      = (["alpha beta".toList] : List Str).take 5
    ∧ (ask_question true ["alpha beta".toList] none "gamma".toList
        (fun _ => Except.ok "An answer.".toList)).2 = true :=
  c2_theorem ["alpha beta".toList] "gamma".toList 5
    (fun _ => Except.ok "An answer.".toList) (by decide) (by decide)

/-! ## Claim C6: embedding-backend errors at query time -/

/-- C6 counterexample: a raising similarity search is caught, but the query
is answered with the first `top_k` chunks, not with the lexical fallback
ranking (which here would return only the matching chunk). -/
theorem c6_counterexample :
    find_relevant_chunks_full (some (Except.error "boom".toList))
        ["dog dog dog".toList, "cat cat cat".toList] "cat".toList 5
      = ["dog dog dog".toList, "cat cat cat".toList]
    ∧ find_relevant_chunks ["dog dog dog".toList, "cat cat cat".toList] "cat".toList 5
      = ["cat cat cat".toList]
    ∧ find_relevant_chunks_full (some (Except.error "boom".toList))
        ["dog dog dog".toList, "cat cat cat".toList] "cat".toList 5
      ≠ find_relevant_chunks ["dog dog dog".toList, "cat cat cat".toList] "cat".toList 5 := by
  refine ⟨by decide, by decide, by decide⟩

/-- C6 as amended: an error raised by the vector-store similarity search
never aborts `find_relevant_chunks` and never surfaces — the except clause
returns the first `top_k` chunks (unranked), while the lexical fallback
scorer is used only when the vector store is absent. -/
theorem c6_theorem (e : Str) (chunks : List Str) (question : Str) (top_k : Nat) :
    find_relevant_chunks_full (some (Except.error e)) chunks question top_k
      = chunks.take top_k
    ∧ find_relevant_chunks_full none chunks question top_k
      = find_relevant_chunks chunks question top_k := by
  constructor
  · show (if chunks.isEmpty then [] else chunks.take top_k) = chunks.take top_k
    cases chunks with
    | nil => simp
    | cons _ _ => rfl
  · rfl

/-! ## Claim C4: the position tracker's `next` contract -/

/-- The system state after `k` successive calls to `get_next_sentence`. -/
def iterCalls (sys : NewsSys) : Nat → NewsSys
  | 0 => sys
  | k + 1 => (get_next_sentence (iterCalls sys k)).2

theorem iterCalls_spec (s ch : List Str) (mo : Bool) :
    ∀ k : Nat, iterCalls ⟨s, 0, ch, mo⟩ k = ⟨s, min k s.length, ch, mo⟩
  | 0 => by simp [iterCalls]
  | k + 1 => by
    rw [iterCalls, iterCalls_spec s ch mo k]
    unfold get_next_sentence
    by_cases h : k < s.length
    · rw [dif_pos (show min k s.length < s.length by omega)]
      show NewsSys.mk s (min k s.length + 1) ch mo
        = NewsSys.mk s (min (k + 1) s.length) ch mo
      exact congrArg (fun pos => NewsSys.mk s pos ch mo) (by omega)
    · rw [dif_neg (show ¬ min k s.length < s.length by omega)]
      show NewsSys.mk s (min k s.length) ch mo
        = NewsSys.mk s (min (k + 1) s.length) ch mo
      exact congrArg (fun pos => NewsSys.mk s pos ch mo) (by omega)

/-- C4: for a freshly loaded document with sentence list `s` of length `n`,
the `i`-th call to `get_next_sentence` (1 ≤ i ≤ n) returns
`(s[i-1], i < n)` and leaves the cursor at `i` (one more than before), and
every call after the `n`-th returns `(none, false)` without moving the
cursor. -/
theorem c4_theorem (s ch : List Str) (mo : Bool) (i : Nat) :
    (∀ (h1 : 1 ≤ i) (h2 : i ≤ s.length),
      (get_next_sentence (iterCalls ⟨s, 0, ch, mo⟩ (i - 1))).1
        = (some (s.get ⟨i - 1, by omega⟩), decide (i < s.length))
      ∧ (iterCalls ⟨s, 0, ch, mo⟩ i).current_position = i)
    ∧ (s.length < i →
      (get_next_sentence (iterCalls ⟨s, 0, ch, mo⟩ (i - 1))).1 = (none, false)
      ∧ (iterCalls ⟨s, 0, ch, mo⟩ i).current_position = s.length) := by
  constructor
  · intro h1 h2
    constructor
    · rw [iterCalls_spec]
      unfold get_next_sentence
      rw [dif_pos (show min (i - 1) s.length < s.length by omega)]
      have hA : min (i - 1) s.length = i - 1 := by omega
      have hB : i - 1 + 1 = i := by omega
      simp only [hA, hB]
    · rw [iterCalls_spec]
      show min i s.length = i
      omega
  · intro h
    constructor
    · rw [iterCalls_spec]
      unfold get_next_sentence
      rw [dif_neg (show ¬ min (i - 1) s.length < s.length by omega)]
    · rw [iterCalls_spec]
      show min i s.length = s.length
      omega

/-- C4 witness: the theorem applied to the 3-sentence scenario at the 2nd
call (the sentences in order with hasMore true, true, false; a 4th call
returning `(none, false)`). -/
theorem c4_witness :
    (get_next_sentence (iterCalls ⟨["A cat sat on the mat quietly.".toList,
        "Dogs barked loudly outside the house.".toList,
        "The weather was sunny and warm today.".toList], 0, [], true⟩ 1)).1
      = (some "Dogs barked loudly outside the house.".toList, true)
    ∧ (get_next_sentence (iterCalls ⟨["A cat sat on the mat quietly.".toList,
        "Dogs barked loudly outside the house.".toList,
        "The weather was sunny and warm today.".toList], 0, [], true⟩ 2)).1
      = (some "The weather was sunny and warm today.".toList, false)
    ∧ (get_next_sentence (iterCalls ⟨["A cat sat on the mat quietly.".toList,
        "Dogs barked loudly outside the house.".toList,
        "The weather was sunny and warm today.".toList], 0, [], true⟩ 3)).1
      = (none, false) := by
  have h2 := c4_theorem
    ["A cat sat on the mat quietly.".toList,
     "Dogs barked loudly outside the house.".toList,
     "The weather was sunny and warm today.".toList] [] true 2
  have h3 := c4_theorem
    ["A cat sat on the mat quietly.".toList,
     "Dogs barked loudly outside the house.".toList,
     "The weather was sunny and warm today.".toList] [] true 3
  have h4 := c4_theorem
    ["A cat sat on the mat quietly.".toList,
     "Dogs barked loudly outside the house.".toList,
     "The weather was sunny and warm today.".toList] [] true 4
  refine ⟨?_, ?_, ?_⟩
  · exact (h2.1 (by omega) (by decide)).1.trans (by decide)
  · exact (h3.1 (by omega) (by decide)).1.trans (by decide)
  · exact (h4.2 (by decide)).1

/-! ## Claim C10: uninitialized module-level API -/

/-- C10: with the global `news_system` still `None`, every module-level
reading call is total and returns its neutral default — `get_next_sentence`
gives `(none, false)`, `get_remaining_text` the empty string,
`get_progress` 0 — and `ask_pdf_question` attempts one initialization,
returning the fixed apology when it fails and delegating to
`ask_question` on the freshly initialized system when it succeeds. -/
theorem c10_theorem (vs : Option (Except Str (List Str))) (question : Str)
    (gen : Str → Except Str Str) (sys : NewsSys) :
    mod_get_next_sentence none = ((none, false), none)
    ∧ mod_get_remaining_text none = []
    ∧ mod_get_progress none = 0
    ∧ ask_pdf_question none none vs question gen = (msg_unavailable, none)
    ∧ ask_pdf_question none (some sys) vs question gen
        = ((ask_question sys.model_ok sys.chunks vs question gen).1, some sys) :=
  ⟨rfl, rfl, rfl, rfl, rfl⟩

/-! ## Claim C5: generation failures never escape and never unpause -/

/-- C5: when the generation call raises, `ask_question` returns the fixed
retry-later message exactly when the error text contains "429" or (after
lower-casing) "quota", and the generic technical-difficulty message
otherwise — a plain string in either case, never a propagating exception —
and `handle_user_question` leaves `is_paused_for_question` and
`is_reading_news` untouched, so a session paused for a question stays in
PausedForQuestion, not Stopped. -/
theorem c5_theorem (chunks : List Str) (question e : Str)
    (gen : Str → Except Str Str)
    (hne : chunks ≠ [])
    (hgen : ∀ p, gen p = Except.error e) :
    (ask_question true chunks none question gen).1
      = (if quota_error e then msg_quota else msg_technical)
    ∧ (ask_question true chunks none question gen).2 = true
    ∧ (∀ (g : GState) (q : Str) (vs : Option (Except Str (List Str)))
        (gen2 : Str → Except Str Str),
        (handle_user_question g q vs gen2).1.is_paused_for_question
          = g.is_paused_for_question
        ∧ (handle_user_question g q vs gen2).1.is_reading_news = g.is_reading_news) := by
  have hchunks : chunks.isEmpty = false := by
    cases chunks with
    | nil => exact absurd rfl hne
    | cons _ _ => rfl
  have hrel2 : find_relevant_chunks chunks question 5 ≠ [] :=
    find_relevant_chunks_ne_nil chunks question 5 hne (by omega)
  have hrel3 : (find_relevant_chunks_full none chunks question 5).isEmpty = false := by
    show (find_relevant_chunks chunks question 5).isEmpty = false
    cases hc : find_relevant_chunks chunks question 5 with
    | nil => exact absurd hc hrel2
    | cons _ _ => rfl
  refine ⟨?_, ?_, ?_⟩
  · unfold ask_question
    simp only [hchunks, Bool.not_true, Bool.false_or, if_false, hrel3, hgen]
    simp
  · unfold ask_question
    simp only [hchunks, Bool.not_true, Bool.false_or, if_false, hrel3, hgen]
    simp
  · intro g q vs gen2
    unfold handle_user_question
    by_cases hq : (pyStrip q).isEmpty
    · rw [if_pos hq]
      exact ⟨rfl, rfl⟩
    · rw [if_neg hq]
      exact ⟨rfl, rfl⟩

/-- C5 witness: a quota-flavoured failure at a concrete paused session
yields the fixed retry-later message with the pause flag still set. -/
theorem c5_witness :
    (ask_question true ["voter verification documents list".toList] none
        "what documents are needed".toList
        (fun _ => Except.error "429 Resource exhausted: quota".toList)).1 = msg_quota
    ∧ (handle_user_question
        (⟨"english".toList, true, true, false, ⟨[], 0, [], true⟩⟩ : GState)
        "what documents are needed".toList none
        (fun _ => Except.error "429 Resource exhausted: quota".toList)).1.is_paused_for_question
      = true := by
  have h := c5_theorem ["voter verification documents list".toList]
    "what documents are needed".toList "429 Resource exhausted: quota".toList
    (fun _ => Except.error "429 Resource exhausted: quota".toList)
    (by decide) (fun p => rfl)
  refine ⟨h.1.trans (by decide), ?_⟩
  exact (h.2.2 (⟨"english".toList, true, true, false, ⟨[], 0, [], true⟩⟩ : GState)
    "what documents are needed".toList none
    (fun _ => Except.error "429 Resource exhausted: quota".toList)).1

/-! ## Claim C1: a question interruption never moves the cursor -/

/-- C1: in the Reading state, `handle_ask_question` never advances or
rewinds `current_position` (at any cursor value); while paused the loop
consumes nothing; and after `handle_continue_reading` the next dispatched
sentence is exactly the one following the sentence that was in flight at
the interruption — the cursor already reflects the dispatched sentence, so
nothing is replayed and nothing is skipped. -/
theorem c1_theorem (g : GState) (i : Nat)
    (hpos : g.news.current_position = i)
    (hi : i < g.news.sentences.length)
    (hr : g.is_reading_news = true)
    (hp : g.is_paused_for_question = false)
    (hc : g.speech_cancelled = false) :
    (∀ g2 : GState,
      (handle_ask_question g2).news.current_position = g2.news.current_position)
    ∧ ((loopStep g handle_ask_question).2).sentenceOf
        = some (g.news.sentences.get ⟨i, hi⟩)
    ∧ (loopStep g handle_ask_question).1.news.current_position = i + 1
    ∧ (loopStep g handle_ask_question).1.is_paused_for_question = true
    ∧ (loopStep (loopStep g handle_ask_question).1 id).2 = LoopEvent.waited
    ∧ (loopStep (loopStep g handle_ask_question).1 id).1.news.current_position = i + 1
    ∧ (handle_continue_reading (loopStep g handle_ask_question).1).news.current_position
        = i + 1
    ∧ (∀ hj : i + 1 < g.news.sentences.length,
        ((loopStep (handle_continue_reading (loopStep g handle_ask_question).1) id).2).sentenceOf
          = some (g.news.sentences.get ⟨i + 1, hj⟩)
        ∧ (loopStep (handle_continue_reading (loopStep g handle_ask_question).1) id).1.news.current_position
          = i + 2) := by
  have hstep1a : (loopStep g handle_ask_question).1
      = { g with is_paused_for_question := true,
                 speech_cancelled := true,
                 news := { g.news with current_position := i + 1 } } := by
    unfold loopStep handle_ask_question get_next_sentence
    rw [hr, hp, hc]
    simp only [Bool.not_true, Bool.false_or, Bool.or_self, if_false]
    rw [dif_pos (show g.news.current_position < g.news.sentences.length by omega)]
    simp only [hpos]
    rfl
  have hstep1b : (loopStep g handle_ask_question).2
      = LoopEvent.dispatched (g.news.sentences.get ⟨i, hi⟩)
          (decide (i + 1 < g.news.sentences.length)) := by
    unfold loopStep handle_ask_question get_next_sentence
    rw [hr, hp, hc]
    simp only [Bool.not_true, Bool.false_or, Bool.or_self, if_false]
    rw [dif_pos (show g.news.current_position < g.news.sentences.length by omega)]
    simp only [hpos]
    rfl
  have hwait : loopStep (loopStep g handle_ask_question).1 id
      = ((loopStep g handle_ask_question).1, LoopEvent.waited) := by
    rw [hstep1a]
    unfold loopStep
    rw [hr]
    rfl
  refine ⟨fun g2 => rfl, ?_, ?_, ?_, ?_, ?_, ?_, ?_⟩
  · rw [hstep1b]
    rfl
  · rw [hstep1a]
  · rw [hstep1a]
  · rw [hwait]
  · rw [hwait, hstep1a]
  · rw [hstep1a]
    rfl
  · intro hj
    have hcont : handle_continue_reading (loopStep g handle_ask_question).1
        = { g with is_reading_news := true,
                   is_paused_for_question := false,
                   speech_cancelled := false,
                   news := { g.news with current_position := i + 1 } } := by
      rw [hstep1a]
      rfl
    have hstep2 : loopStep (handle_continue_reading (loopStep g handle_ask_question).1) id
        = (let g3 : GState :=
            { g with is_reading_news := true,
                     is_paused_for_question := false,
                     speech_cancelled := false,
                     news := { g.news with current_position := i + 2 } }
           if i + 2 < g.news.sentences.length then
             (g3, LoopEvent.dispatched (g.news.sentences.get ⟨i + 1, hj⟩)
                (decide (i + 2 < g.news.sentences.length)))
           else ({ g3 with is_reading_news := false },
                LoopEvent.dispatchedCompleted (g.news.sentences.get ⟨i + 1, hj⟩))) := by
      rw [hcont]
      unfold loopStep get_next_sentence
      simp only [Bool.not_true, Bool.false_or, Bool.or_self, if_false]
      rw [dif_pos (show ({ g.news with current_position := i + 1 } : NewsSys).current_position
        < ({ g.news with current_position := i + 1 } : NewsSys).sentences.length from hj)]
      by_cases h2 : i + 2 < g.news.sentences.length
      · rw [if_pos h2]
        simp only [id_eq]
        rw [if_neg (show ¬ (!decide (i + 1 + 1 < g.news.sentences.length)) = true by
          simp [h2])]
        rfl
      · rw [if_neg h2]
        simp only [id_eq]
        rw [if_pos (show (!decide (i + 1 + 1 < g.news.sentences.length)) = true by
          simp [h2])]
        rfl
    rw [hstep2]
    by_cases h2 : i + 2 < g.news.sentences.length
    · rw [if_pos h2]
      exact ⟨rfl, rfl⟩
    · rw [if_neg h2]
      exact ⟨rfl, rfl⟩

/-- C1 witness: the spec's scenario — a five-sentence document with the
cursor just past sentence 2 (index 1) at the interruption; the resumed
loop dispatches sentence 3 (index 2). -/
theorem c1_witness :
    ((loopStep (⟨"english".toList, true, false, false,
        ⟨["s one a b c d.".toList, "s two a b c d.".toList, "s three a b c d.".toList,
          "s four a b c d.".toList, "s five a b c d.".toList], 1, [], true⟩⟩ : GState)
        handle_ask_question).2).sentenceOf = some "s two a b c d.".toList
    ∧ (loopStep (⟨"english".toList, true, false, false,
        ⟨["s one a b c d.".toList, "s two a b c d.".toList, "s three a b c d.".toList,
          "s four a b c d.".toList, "s five a b c d.".toList], 1, [], true⟩⟩ : GState)
        handle_ask_question).1.news.current_position = 2
    ∧ ((loopStep (handle_continue_reading (loopStep (⟨"english".toList, true, false, false,
        ⟨["s one a b c d.".toList, "s two a b c d.".toList, "s three a b c d.".toList,
          "s four a b c d.".toList, "s five a b c d.".toList], 1, [], true⟩⟩ : GState)
        handle_ask_question).1) id).2).sentenceOf = some "s three a b c d.".toList := by
  have h := c1_theorem (⟨"english".toList, true, false, false,
    ⟨["s one a b c d.".toList, "s two a b c d.".toList, "s three a b c d.".toList,
      "s four a b c d.".toList, "s five a b c d.".toList], 1, [], true⟩⟩ : GState)
    1 rfl (by decide) rfl rfl rfl
  refine ⟨h.2.1.trans (by decide), h.2.2.1, ?_⟩
  exact ((h.2.2.2.2.2.2.2 (by decide)).1).trans (by decide)

/-! ## Claim C9: cross-session state -/

/-- A concrete process state with one session mid-broadcast: reading, not
paused, cursor at 1 of 2. -/
def g9 : GState :=
  ⟨"english".toList, true, false, false,
   ⟨["five words in this sentence.".toList, "another five word sentence here.".toList],
    1, [], true⟩⟩

/-- C9 counterexample: the pause/cancel flags, lifecycle flag and read
cursor live in module-level globals shared by every connected session — an
`ask_question` command issued for session 0 flips the one pause flag that
the narration loop serving any other session polls (its next iteration
waits instead of dispatching), and a `start_reading` from one session
rewinds the one shared cursor every session reads. -/
theorem c9_counterexample :
    g9.is_paused_for_question = false
    ∧ (handle_ask_question_for 0 g9).is_paused_for_question = true
    ∧ (loopStep g9 id).2
        = LoopEvent.dispatchedCompleted "another five word sentence here.".toList
    ∧ (loopStep (handle_ask_question_for 0 g9) id).2 = LoopEvent.waited
    ∧ g9.news.current_position = 1
    ∧ (handle_start_reading_for 0 g9).news.current_position = 0 := by
  refine ⟨rfl, rfl, by decide, rfl, rfl, rfl⟩

/-- C9 as amended: there is no per-session mutable state to isolate — every
handler's state effect is identical whichever session issues the command
(the session id selects only the emit room), and the effect lands on the
single process-wide flag/cursor state that each session's narration loop
reads: an ask-question from any session makes the (every-session)
narration loop wait, and a start-reading from any session resets the
shared cursor to 0. -/
theorem c9_theorem :
    (∀ (sid sid2 : Nat) (g : GState),
      handle_ask_question_for sid g = handle_ask_question_for sid2 g
      ∧ handle_continue_reading_for sid g = handle_continue_reading_for sid2 g
      ∧ handle_start_reading_for sid g = handle_start_reading_for sid2 g
      ∧ handle_stop_reading_for sid g = handle_stop_reading_for sid2 g
      ∧ handle_cancel_session_for sid g = handle_cancel_session_for sid2 g)
    ∧ (∀ (sid : Nat) (g : GState), g.is_reading_news = true →
        (loopStep (handle_ask_question_for sid g) id).2 = LoopEvent.waited)
    ∧ (∀ (sid : Nat) (g : GState),
        (handle_start_reading_for sid g).news.current_position = 0) := by
  refine ⟨fun sid sid2 g => ⟨rfl, rfl, rfl, rfl, rfl⟩, ?_, fun sid g => rfl⟩
  intro sid g hr
  unfold loopStep handle_ask_question_for handle_ask_question
  rw [hr]
  rfl

/-- C9 witness: the amended theorem applied at the concrete state `g9` for
sessions 0 and 1. -/
theorem c9_witness :
    handle_ask_question_for 0 g9 = handle_ask_question_for 1 g9
    ∧ (loopStep (handle_ask_question_for 0 g9) id).2 = LoopEvent.waited
    ∧ (handle_start_reading_for 0 g9).news.current_position = 0 :=
  ⟨(c9_theorem.1 0 1 g9).1, c9_theorem.2.1 0 g9 rfl, c9_theorem.2.2 0 g9⟩

/-! ## Claim C8: the optimal-rate calculator -/

theorem pyInt_clamp_bounds (q : ℚ) :
    110 ≤ pyInt (max 110 (min 170 q)) ∧ pyInt (max 110 (min 170 q)) ≤ 170 := by
  have h1 : (110 : ℚ) ≤ max 110 (min 170 q) := le_max_left _ _
  have h2 : max 110 (min 170 q) ≤ 170 := max_le (by norm_num) (min_le_left _ _)
  have h0 : (0 : ℚ) ≤ max 110 (min 170 q) := le_trans (by norm_num) h1
  unfold pyInt
  rw [if_pos h0]
  constructor
  · exact Int.le_floor.mpr (by exact_mod_cast h1)
  · calc ⌊max 110 (min 170 q)⌋ ≤ ⌊(170 : ℚ)⌋ := Int.floor_le_floor h2
      _ = 170 := by norm_num

/-- C8: `calculate_optimal_rate` always lands in `[min_wpm, max_wpm] =
[110, 170]`; it returns `base_wpm = 140` unchanged whenever the word count
is at most 5, and otherwise returns, as an integer, the clamp to
`[110, 170]` of `wordCount / (loops * 5.0) * 60` with
`loops = max 1 (round (wordCount / 140 * 60 / 5.0))`. -/
theorem c8_theorem (text : Str) :
    (110 ≤ calculate_optimal_rate text ∧ calculate_optimal_rate text ≤ 170)
    ∧ (wordCount text ≤ 5 → calculate_optimal_rate text = 140)
    ∧ (5 < wordCount text →
        calculate_optimal_rate text
          = pyInt (max 110 (min 170 ((wordCount text : ℚ)
              / (((max 1 (pyRound ((wordCount text : ℚ) / 140 * 60 / 5)) : ℤ) : ℚ) * 5)
              * 60)))) := by
  by_cases h : wordCount text ≤ 5
  · have hval : calculate_optimal_rate text = 140 := by
      unfold calculate_optimal_rate
      rw [if_pos h]
    refine ⟨⟨?_, ?_⟩, fun _ => hval, fun h5 => absurd h5 (by omega)⟩
    · rw [hval]
      norm_num
    · rw [hval]
      norm_num
  · have hval : calculate_optimal_rate text
        = pyInt (max 110 (min 170 ((wordCount text : ℚ)
            / (((max 1 (pyRound ((wordCount text : ℚ) / 140 * 60 / 5)) : ℤ) : ℚ) * 5)
            * 60))) := by
      unfold calculate_optimal_rate estimate_speech_duration talk_video_duration
        base_wpm min_wpm max_wpm
      rw [if_neg h]
    refine ⟨⟨?_, ?_⟩, fun h5 => absurd h5 (by omega), fun _ => hval⟩
    · rw [hval]
      exact (pyInt_clamp_bounds _).1
    · rw [hval]
      exact (pyInt_clamp_bounds _).2

/-- C8 witness: the theorem applied to a 12-word utterance (whose rate the
calculator sets to 144, inside the comfortable band). -/
theorem c8_witness :
    (110 ≤ calculate_optimal_rate
        "one two three four five six seven eight nine ten eleven twelve".toList
      ∧ calculate_optimal_rate
        "one two three four five six seven eight nine ten eleven twelve".toList ≤ 170)
    ∧ calculate_optimal_rate
        "one two three four five six seven eight nine ten eleven twelve".toList
      = pyInt (max 110 (min 170 ((wordCount
          "one two three four five six seven eight nine ten eleven twelve".toList : ℚ)
          / (((max 1 (pyRound ((wordCount
              "one two three four five six seven eight nine ten eleven twelve".toList : ℚ)
              / 140 * 60 / 5)) : ℤ) : ℚ) * 5) * 60))) := by
  have h := c8_theorem
    "one two three four five six seven eight nine ten eleven twelve".toList
  exact ⟨h.1, h.2.2 (by decide)⟩

/-! ## Claim C7: the pause splitter -/

theorem squash_joinChunk (current s : Str) :
    squash (joinChunk current s) = squash current ++ squash s := by
  unfold joinChunk
  by_cases hc : current.isEmpty
  · rw [if_pos hc, List.isEmpty_iff.mp hc]
    rfl
  · rw [if_neg hc, squash_append]
    have hsp : (!(ws ' ')) = false := by decide
    simp [squash, List.filter_cons, hsp]

/-- The accumulation loop preserves the whitespace-squashed concatenation:
closed chunks, the open chunk and the unprocessed sentences together hold
exactly the squashed text of the already-known parts. -/
theorem chunkRec_squash :
    ∀ (ss chunks : List Str) (current : Str),
      squash (List.flatten (closeChunks (chunkRec ss chunks current)))
        = squash (List.flatten chunks) ++ squash current ++ squash (List.flatten ss)
  | [], chunks, current => by
    unfold chunkRec closeChunks
    by_cases hc : current.isEmpty
    · rw [if_pos hc, List.isEmpty_iff.mp hc]
      simp [squash]
    · rw [if_neg hc, List.flatten_append]
      simp [squash_append, squash_pyStrip]
      rfl
  | s :: rest, chunks, current => by
    simp only [chunkRec]
    by_cases hlen : 15 < wordCount (joinChunk current s)
    · rw [if_pos hlen]
      by_cases hc : current.isEmpty
      · rw [if_pos hc]
        rw [chunkRec_squash rest chunks s, List.isEmpty_iff.mp hc]
        simp [squash, squash_append, List.append_assoc]
      · rw [if_neg hc]
        rw [chunkRec_squash rest (chunks ++ [pyStrip current]) s, List.flatten_append]
        simp [squash_append, squash_pyStrip, List.append_assoc]
    · rw [if_neg hlen]
      rw [chunkRec_squash rest chunks (joinChunk current s), squash_joinChunk]
      simp [squash_append, List.append_assoc]

/-- With nonempty sentences still to process (or anything already
accumulated), the loop closes with at least one chunk. -/
theorem chunkRec_ne :
    ∀ (ss chunks : List Str) (current : Str),
      (∀ x ∈ ss, x ≠ []) →
      (chunks ≠ [] ∨ current ≠ [] ∨ ss ≠ []) →
      closeChunks (chunkRec ss chunks current) ≠ []
  | [], chunks, current, _, hor => by
    unfold chunkRec closeChunks
    by_cases hc : current.isEmpty
    · rw [if_pos hc]
      rcases hor with h | h | h
      · exact h
      · exact absurd (List.isEmpty_iff.mp hc) h
      · exact absurd rfl h
    · rw [if_neg hc]
      simp
  | s :: rest, chunks, current, hss, _ => by
    simp only [chunkRec]
    have hs : s ≠ [] := hss s (List.mem_cons_self s rest)
    have hss2 : ∀ x ∈ rest, x ≠ [] := fun x hx => hss x (List.mem_cons_of_mem s hx)
    by_cases hlen : 15 < wordCount (joinChunk current s)
    · rw [if_pos hlen]
      exact chunkRec_ne rest _ s hss2 (Or.inr (Or.inl hs))
    · rw [if_neg hlen]
      refine chunkRec_ne rest chunks (joinChunk current s) hss2 (Or.inr (Or.inl ?_))
      unfold joinChunk
      by_cases hc : current.isEmpty
      · rw [if_pos hc]
        exact hs
      · rw [if_neg hc]
        simp

/-- Every chunk the loop closes is within the 15-word budget or is a
single (already stripped) sentence of the source set `S`. -/
theorem chunkRec_bound (S : List Str) (hS : ∀ x ∈ S, pyStrip x = x) :
    ∀ (ss chunks : List Str) (current : Str),
      (∀ x ∈ ss, x ∈ S) →
      (∀ c ∈ chunks, wordCount c ≤ 15 ∨ c ∈ S) →
      (current = [] ∨ wordCount current ≤ 15 ∨ current ∈ S) →
      ∀ c ∈ closeChunks (chunkRec ss chunks current), wordCount c ≤ 15 ∨ c ∈ S
  | [], chunks, current, _, hchunks, hcur => by
    unfold chunkRec closeChunks
    by_cases hc : current.isEmpty
    · rw [if_pos hc]
      exact hchunks
    · rw [if_neg hc]
      intro c hcmem
      rw [List.mem_append, List.mem_singleton] at hcmem
      rcases hcmem with h | rfl
      · exact hchunks c h
      · rcases hcur with h1 | h1 | h1
        · rw [h1] at hc
          simp at hc
        · left
          rw [wordCount_pyStrip]
          exact h1
        · right
          rw [hS current h1]
          exact h1
  | s :: rest, chunks, current, hss, hchunks, hcur => by
    simp only [chunkRec]
    have hsS : s ∈ S := hss s (List.mem_cons_self s rest)
    have hss2 : ∀ x ∈ rest, x ∈ S := fun x hx => hss x (List.mem_cons_of_mem s hx)
    by_cases hlen : 15 < wordCount (joinChunk current s)
    · rw [if_pos hlen]
      by_cases hc : current.isEmpty
      · rw [if_pos hc]
        exact chunkRec_bound S hS rest chunks s hss2 hchunks (Or.inr (Or.inr hsS))
      · rw [if_neg hc]
        refine chunkRec_bound S hS rest _ s hss2 ?_ (Or.inr (Or.inr hsS))
        intro c hcmem
        rw [List.mem_append, List.mem_singleton] at hcmem
        rcases hcmem with h | rfl
        · exact hchunks c h
        · rcases hcur with h1 | h1 | h1
          · rw [h1] at hc
            simp at hc
          · left
            rw [wordCount_pyStrip]
            exact h1
          · right
            rw [hS current h1]
            exact h1
    · rw [if_neg hlen]
      exact chunkRec_bound S hS rest chunks (joinChunk current s) hss2 hchunks
        (Or.inr (Or.inl (by omega)))

/-- C7 counterexample: on a 9-word two-sentence text the splitter returns
the sentences joined with the punctuation separators dropped — not the
whole text; and on a text of 16 whitespace-separated punctuation runs (no
sentence fragments at all) it returns the whole text as one chunk of more
than 15 words that is not a sentence, with a squashed concatenation that
no sentence list reproduces. -/
theorem c7_counterexample :
    wordCount "One two three four five six. Seven eight nine.".toList ≤ 15
    ∧ split_text_for_natural_pauses "One two three four five six. Seven eight nine.".toList
        ≠ ["One two three four five six. Seven eight nine.".toList]
    ∧ split_text_for_natural_pauses ". . . . . . . . . . . . . . . .".toList
        = [". . . . . . . . . . . . . . . .".toList]
    ∧ 15 < wordCount ". . . . . . . . . . . . . . . .".toList
    ∧ pauseSentences ". . . . . . . . . . . . . . . .".toList = []
    ∧ squash (List.flatten
        (split_text_for_natural_pauses ". . . . . . . . . . . . . . . .".toList))
      ≠ squash (List.flatten (pauseSentences ". . . . . . . . . . . . . . . .".toList)) := by
  refine ⟨by decide, by decide, by decide, by decide, by decide, by decide⟩

/-- C7 as amended: the splitter always returns at least one chunk; when the
text has no sentence fragment at all the single chunk is the whole text
(however long); and when it has fragments, the chunks concatenated in
order reproduce, ignoring whitespace, the punctuation-stripped fragments
in order (not the original punctuation), and no chunk exceeds 15 words
except a chunk that is a single oversized fragment. -/
theorem c7_theorem (t : Str) :
    split_text_for_natural_pauses t ≠ []
    ∧ (pauseSentences t = [] → split_text_for_natural_pauses t = [t])
    ∧ (pauseSentences t ≠ [] →
        squash (List.flatten (split_text_for_natural_pauses t))
          = squash (List.flatten (pauseSentences t))
        ∧ ∀ c ∈ split_text_for_natural_pauses t,
            wordCount c ≤ 15 ∨ c ∈ pauseSentences t) := by
  refine ⟨?_, ?_, ?_⟩
  · show (if (closeChunks (chunkRec (pauseSentences t) [] [])).isEmpty
        then [t] else closeChunks (chunkRec (pauseSentences t) [] [])) ≠ []
    by_cases hc : (closeChunks (chunkRec (pauseSentences t) [] [])).isEmpty
    · rw [if_pos hc]
      simp
    · rw [if_neg hc]
      intro hcon
      rw [hcon] at hc
      exact hc rfl
  · intro h
    show (if (closeChunks (chunkRec (pauseSentences t) [] [])).isEmpty
        then [t] else closeChunks (chunkRec (pauseSentences t) [] [])) = [t]
    rw [h]
    rfl
  · intro h
    have hne := chunkRec_ne (pauseSentences t) [] []
      (fun x hx => (mem_pauseSentences t x hx).1) (Or.inr (Or.inr h))
    have hsplit : split_text_for_natural_pauses t
        = closeChunks (chunkRec (pauseSentences t) [] []) := by
      show (if (closeChunks (chunkRec (pauseSentences t) [] [])).isEmpty
          then [t] else closeChunks (chunkRec (pauseSentences t) [] [])) = _
      rw [if_neg (fun hcon => hne (List.isEmpty_iff.mp hcon))]
    constructor
    · rw [hsplit, chunkRec_squash]
      simp [squash]
    · rw [hsplit]
      exact chunkRec_bound (pauseSentences t)
        (fun x hx => (mem_pauseSentences t x hx).2)
        (pauseSentences t) [] [] (fun x hx => hx)
        (fun c hcm => absurd hcm (List.not_mem_nil c)) (Or.inl rfl)

/-- C7 witness: the amended theorem applied to a two-sentence text with one
oversized sentence — the result is non-empty, reproduces the squashed
fragments, and every chunk is within budget or is a whole fragment. -/
theorem c7_witness :
    split_text_for_natural_pauses "Short one here. This single sentence runs on and on with far too many words to fit inside one fifteen word chunk.".toList ≠ []
    ∧ squash (List.flatten (split_text_for_natural_pauses "Short one here. This single sentence runs on and on with far too many words to fit inside one fifteen word chunk.".toList))
      = squash (List.flatten (pauseSentences "Short one here. This single sentence runs on and on with far too many words to fit inside one fifteen word chunk.".toList))
    ∧ ∀ c ∈ split_text_for_natural_pauses "Short one here. This single sentence runs on and on with far too many words to fit inside one fifteen word chunk.".toList,
        wordCount c ≤ 15
        ∨ c ∈ pauseSentences "Short one here. This single sentence runs on and on with far too many words to fit inside one fifteen word chunk.".toList := by
  have h := c7_theorem "Short one here. This single sentence runs on and on with far too many words to fit inside one fifteen word chunk.".toList
  exact ⟨h.1, (h.2.2 (by decide)).1, (h.2.2 (by decide)).2⟩

end NewsAnchor
